import Mathlib

/-!
# Verification of the email client's query, stats and mutation logic

Shallow embedding of the repository's core server-side logic:

* the email table schema (`src/lib/schema.ts`) as a Lean structure, with the
  database modelled as a `List Email` in table order;
* the query engine (`src/lib/emailQueries.ts`): filter predicates, free-text
  search, the threaded "latest per thread" query built from a `GROUP BY`
  subquery joined back on `(threadId, MAX(createdAt))`;
* the stats service (`src/lib/statsQueries.ts`): `recalculateStats`,
  the single-row upsert and `getStats`;
* the route handlers for `GET/POST/PATCH/DELETE /api/emails`
  (`src/app/api/emails/route.ts`) and
  `GET /api/emails/thread/[threadId]` (`.../thread/[threadId]/route.ts`).

SQL `UPDATE ... WHERE c` is modelled as a `List.map` that rewrites exactly the
rows satisfying `c`; `ORDER BY` is modelled by an insertion sort on the
ordering key; timestamps are `Nat` (SQLite integer timestamps), and request
parameters that may be absent are `Option` values, with JavaScript truthiness
made explicit.
-/

/-- Direction tag of an email record (`EmailDirection` in `schema.ts`). -/
inductive EmailDirection where
  | incoming
  | outgoing
deriving DecidableEq, Repr, BEq

/-- One row of the `emails` table (`schema.ts`).  `content` is nullable; all
other columns are `NOT NULL`.  `createdAt` / `updatedAt` are integer
timestamps. -/
structure Email where
  id : Int
  threadId : String
  subject : String
  «from» : String
  «to» : String
  content : Option String
  isRead : Bool
  isImportant : Bool
  isDeleted : Bool
  direction : EmailDirection
  createdAt : Nat
  updatedAt : Nat
deriving DecidableEq, Repr

/-- The single row of the denormalized `email_stats` table (`schema.ts`).
Note that the table has *no* column for a deleted count. -/
structure EmailStatsRow where
  id : Nat
  inboxEmailCount : Nat
  unreadEmailCount : Nat
  importantEmailCount : Nat
  sentEmailCount : Nat
  updatedAt : Nat
deriving DecidableEq, Repr

/-- The stats snapshot returned to clients (`EmailStats` in the types file). -/
structure EmailStats where
  total : Nat
  unread : Nat
  important : Nat
  deleted : Nat
  sent : Nat
deriving DecidableEq, Repr

/-! ## Query engine (`src/lib/emailQueries.ts`) -/

/-- `getFilterCondition` from `emailQueries.ts`: the WHERE clause selected by
filter name.  Unknown filter names and an absent filter both take the
`inbox`/default branch, exactly as the `switch` does. -/
def getFilterCondition (filter : Option String) (e : Email) : Bool :=
  match filter with
  | some "trash" => e.isDeleted
  | some "important" => e.isImportant && e.isDeleted == false
  | some "sent" => e.direction == EmailDirection.outgoing && e.isDeleted == false
  | some "unread" => e.isRead == false && e.isDeleted == false
  | _ => e.direction == EmailDirection.incoming && e.isDeleted == false

/-- JavaScript `String.prototype.trim()`: strip leading and trailing
whitespace (modelled on the character list so that it evaluates). -/
def jsTrim (s : String) : String :=
  String.mk (((s.data.dropWhile Char.isWhitespace).reverse.dropWhile
    Char.isWhitespace).reverse)

/-- SQLite `LIKE '%pat%'` match: case-insensitive substring test. -/
def likeContains (s pat : String) : Bool :=
  pat.isEmpty || (s.toLower.splitOn pat.toLower).length != 1

/-- `getSearchConditions` from `emailQueries.ts`: OR of `LIKE` matches on
subject, to, from and content.  A NULL content column never matches. -/
def getSearchConditions (q : String) (e : Email) : Bool :=
  likeContains e.subject q || likeContains e.«to» q || likeContains e.«from» q ||
    (match e.content with
     | some c => likeContains c q
     | none => false)

/-- The search clause pushed by `fetchEmails`: only when the query string is
truthy and its trim is truthy (`if (query && query.trim())`). -/
def searchClause (query : Option String) (e : Email) : Bool :=
  match query with
  | some q => if jsTrim q = "" then true else getSearchConditions (jsTrim q) e
  | none => true

/-- Conjunction of the conditions array built by `fetchEmails`
(`and(...conditions)`): filter condition plus optional search condition. -/
def fetchEmailsCond (filter query : Option String) (e : Email) : Bool :=
  getFilterCondition filter e && searchClause query e

/-- Insertion step for modelling SQL `ORDER BY`. -/
def insertSorted (le : Email → Email → Bool) (e : Email) : List Email → List Email
  | [] => [e]
  | x :: xs => if le e x then e :: x :: xs else x :: insertSorted le e xs

/-- Insertion sort modelling SQL `ORDER BY` with comparison `le`. -/
def sortEmails (le : Email → Email → Bool) : List Email → List Email
  | [] => []
  | x :: xs => insertSorted le x (sortEmails le xs)

/-- `ORDER BY createdAt DESC`. -/
def descByCreated (a b : Email) : Bool := decide (b.createdAt ≤ a.createdAt)

/-- `ORDER BY createdAt ASC`. -/
def ascByCreated (a b : Email) : Bool := decide (a.createdAt ≤ b.createdAt)

/-- `MAX(createdAt)` over a list of rows (`none` on the empty group). -/
def maxCreated? : List Email → Option Nat
  | [] => none
  | e :: rest =>
      match maxCreated? rest with
      | none => some e.createdAt
      | some m => some (max e.createdAt m)

/-- The rows of thread `t` that satisfy `cond` — one group of the
`GROUP BY threadId` subquery in `fetchThreadedEmails`. -/
def matchingInThread (db : List Email) (cond : Email → Bool) (t : String) : List Email :=
  db.filter (fun e => cond e && e.threadId == t)

/-- The `(threadId, MAX(createdAt))` value of thread `t` in the
`latest` subquery: `some` iff the thread has a row matching `cond`. -/
def threadMaxCreated (db : List Email) (cond : Email → Bool) (t : String) : Option Nat :=
  maxCreated? (matchingInThread db cond t)

/-- `fetchThreadedEmails` from `emailQueries.ts`: inner-join of the full
`emails` table against the `latest` subquery on
`threadId = latest.threadId AND createdAt = latest.maxCreatedAt`,
ordered by `createdAt DESC`.  The outer select carries no WHERE clause, so a
row is returned exactly when its thread has a matching row and its own
`createdAt` equals that thread's maximum. -/
def fetchThreadedEmails (db : List Email) (cond : Email → Bool) : List Email :=
  sortEmails descByCreated
    (db.filter (fun e => decide (threadMaxCreated db cond e.threadId = some e.createdAt)))

/-- `fetchEmails` from `emailQueries.ts`. -/
def fetchEmails (db : List Email) (filter query : Option String) (threaded : Bool) :
    List Email :=
  if threaded then
    fetchThreadedEmails db (fetchEmailsCond filter query)
  else
    sortEmails descByCreated (db.filter (fetchEmailsCond filter query))

/-! ## Stats service (`src/lib/statsQueries.ts`) -/

/-- `COUNT(*)` over the rows satisfying `p`. -/
def countWhere (p : Email → Bool) (db : List Email) : Nat :=
  (db.filter p).length

/-- The five COUNT aggregates run by `recalculateStats`.  Note the unread
count is scoped to `direction = incoming` in the source. -/
def recalculateStats (db : List Email) : EmailStats :=
  { total := countWhere
      (fun e => e.direction == EmailDirection.incoming && e.isDeleted == false) db
    unread := countWhere
      (fun e =>
        e.direction == EmailDirection.incoming && e.isRead == false && e.isDeleted == false) db
    important := countWhere
      (fun e => e.isImportant == true && e.isDeleted == false) db
    deleted := countWhere (fun e => e.isDeleted == true) db
    sent := countWhere
      (fun e => e.direction == EmailDirection.outgoing && e.isDeleted == false) db }

/-- The row written by the upsert in `recalculateStats` (`STATS_ROW_ID = 1`);
only the four counters present as columns are persisted. -/
def statsRowOf (s : EmailStats) (now : Nat) : EmailStatsRow :=
  { id := 1
    inboxEmailCount := s.total
    unreadEmailCount := s.unread
    importantEmailCount := s.important
    sentEmailCount := s.sent
    updatedAt := now }

/-- `recalculateStats` as a state transformer: the returned snapshot together
with the upserted stats row (the upsert overwrites any existing row with the
same values, so the previous row does not matter). -/
def recalcPersist (db : List Email) (now : Nat) : EmailStats × EmailStatsRow :=
  (recalculateStats db, statsRowOf (recalculateStats db) now)

/-- `getStats` from `statsQueries.ts`: `row?` is the result of selecting the
single stats row (`none` when the table is empty).  On a miss it falls back to
`recalculateStats` (which upserts); on a hit it maps the stored row, with the
`deleted` field hard-coded to `0` ("will be recalculated on next mutation"). -/
def getStats (db : List Email) (row? : Option EmailStatsRow) (now : Nat) :
    EmailStats × Option EmailStatsRow :=
  match row? with
  | none => ((recalcPersist db now).1, some (recalcPersist db now).2)
  | some r =>
      ({ total := r.inboxEmailCount
         unread := r.unreadEmailCount
         important := r.importantEmailCount
         deleted := 0
         sent := r.sentEmailCount }, some r)

/-! ## Route handlers (`src/app/api/emails/route.ts`) -/

/-- JavaScript truthiness of a nullable string parameter
(`searchParams.get(...)` yields `null` or a string; `""` is falsy). -/
def truthyStr : Option String → Bool
  | none => false
  | some s => s != ""

/-- JavaScript truthiness of a nullable numeric id (`0` is falsy). -/
def truthyId : Option Int → Bool
  | none => false
  | some n => n != 0

/-- JavaScript `parseInt(s, 10)`: skip leading whitespace, optional sign,
then the longest prefix of decimal digits; `NaN` (here `none`) when that
prefix is empty. -/
def jsParseInt (s : String) : Option Int :=
  let digitsVal : List Char → Int :=
    fun ds => Int.ofNat (ds.foldl (fun a c => 10 * a + (c.toNat - 48)) 0)
  match s.data.dropWhile Char.isWhitespace with
  | '-' :: rest =>
      let ds := rest.takeWhile Char.isDigit
      if ds.isEmpty then none else some (-(digitsVal ds))
  | '+' :: rest =>
      let ds := rest.takeWhile Char.isDigit
      if ds.isEmpty then none else some (digitsVal ds)
  | cs =>
      let ds := cs.takeWhile Char.isDigit
      if ds.isEmpty then none else some (digitsVal ds)

/-- Body of `POST /api/emails`; absent JSON fields are `none`. -/
structure PostBody where
  subject : Option String
  «to» : Option String
  cc : Option String
  bcc : Option String
  content : Option String
  threadId : Option String
  direction : Option EmailDirection
deriving DecidableEq, Repr

/-- Response of `POST /api/emails` (the catch-all 500 path is out of scope of
this model since the embedded store cannot fail). -/
inductive PostResult where
  | error (msg : String)
  | created (email : Email)
deriving DecidableEq, Repr

/-- HTTP status of a `POST /api/emails` response (`errorResponse` defaults to
400; success is returned with 201). -/
def PostResult.statusCode : PostResult → Nat
  | .error _ => 400
  | .created _ => 201

/-- `!x?.trim()` on a nullable string: true when absent, empty, or
whitespace-only. -/
def blankStr (o : Option String) : Bool :=
  jsTrim (o.getD "") == ""

/-- `MAX(id) + 1`, the id SQLite assigns to the inserted row. -/
def nextId (db : List Email) : Int :=
  db.foldr (fun e m => max e.id m) 0 + 1

/-- `POST /api/emails`: validates subject and recipient, then inserts a row.
`genTid` stands for the `generateThreadId()` call used when no (truthy)
threadId is supplied; `now` for `new Date()`.  The schema has no cc/bcc
columns, so those body fields are not persisted. -/
def POST (db : List Email) (b : PostBody) (genTid : String) (now : Nat) :
    List Email × PostResult :=
  if blankStr b.subject then (db, .error "Subject is required")
  else if blankStr b.«to» then (db, .error "Recipient (to) is required")
  else
    let email : Email :=
      { id := nextId db
        threadId := if truthyStr b.threadId then b.threadId.getD "" else genTid
        subject := jsTrim (b.subject.getD "")
        «from» := "me@company.com"
        «to» := jsTrim (b.«to».getD "")
        content := some (jsTrim (b.content.getD ""))
        isRead := true
        isImportant := false
        isDeleted := false
        direction := b.direction.getD EmailDirection.outgoing
        createdAt := now
        updatedAt := now }
    (db ++ [email], .created email)

/-- Body of `PATCH /api/emails`; absent JSON fields are `none`. -/
structure PatchBody where
  id : Option Int
  threadId : Option String
  isRead : Option Bool
  isImportant : Option Bool
  isDeleted : Option Bool
deriving DecidableEq, Repr

/-- Response of `PATCH /api/emails`. -/
inductive PatchResult where
  | error (msg : String) (status : Nat)
  | ok (emails : List Email) (stats : EmailStats)
deriving DecidableEq, Repr

/-- The `updateData` object applied to a matched row: always stamps
`updatedAt`, and overwrites exactly the flags present in the body. -/
def patchApply (b : PatchBody) (now : Nat) (e : Email) : Email :=
  { e with
    updatedAt := now
    isRead := b.isRead.getD e.isRead
    isImportant := b.isImportant.getD e.isImportant
    isDeleted := b.isDeleted.getD e.isDeleted }

/-- The WHERE clause of the PATCH update:
`threadId ? eq(emails.threadId, threadId) : eq(emails.id, id)`. -/
def patchCond (b : PatchBody) (e : Email) : Bool :=
  if truthyStr b.threadId then e.threadId == b.threadId.getD ""
  else some e.id == b.id

/-- `PATCH /api/emails`: requires a truthy id or threadId, updates every
matched row, 404s when no row matched, and returns the updated rows together
with freshly recalculated stats. -/
def PATCH (db : List Email) (b : PatchBody) (now : Nat) : List Email × PatchResult :=
  if truthyId b.id || truthyStr b.threadId then
    let db2 := db.map (fun e => if patchCond b e then patchApply b now e else e)
    let updated := (db.filter (patchCond b)).map (patchApply b now)
    (db2,
      if updated.isEmpty then .error "Email(s) not found" 404
      else .ok updated (recalculateStats db2))
  else (db, .error "Email ID or Thread ID is required" 400)

/-- Response of `DELETE /api/emails`. -/
inductive DeleteResult where
  | error (msg : String) (status : Nat)
  | ok (message : String) (stats : EmailStats)
deriving DecidableEq, Repr

/-- The WHERE clause of the thread-addressed soft delete: thread membership,
`isDeleted = false`, and additionally `isImportant = true` exactly when the
filter parameter is the string `important`. -/
def deleteThreadCond (t : String) (filterP : Option String) (e : Email) : Bool :=
  e.threadId == t && e.isDeleted == false &&
    (if filterP = some "important" then e.isImportant else true)

/-- `DELETE /api/emails`: soft-deletes by threadId (scoped by the optional
filter) or by parsed single id, 404s when no row matched, and returns a
message with freshly recalculated stats. -/
def DELETE (db : List Email) (idP threadIdP filterP : Option String) (now : Nat) :
    List Email × DeleteResult :=
  if truthyStr idP || truthyStr threadIdP then
    if truthyStr threadIdP then
      let t := threadIdP.getD ""
      let db2 := db.map (fun e =>
        if deleteThreadCond t filterP e then { e with isDeleted := true, updatedAt := now }
        else e)
      let deleted := db.filter (deleteThreadCond t filterP)
      (db2,
        if deleted.isEmpty then .error "Email(s) not found" 404
        else .ok "Thread moved to trash" (recalculateStats db2))
    else
      match jsParseInt (idP.getD "") with
      | none => (db, .error "Invalid email ID" 400)
      | some n =>
          let db2 := db.map (fun e =>
            if e.id == n then { e with isDeleted := true, updatedAt := now } else e)
          let deleted := db.filter (fun e => e.id == n)
          (db2,
            if deleted.isEmpty then .error "Email(s) not found" 404
            else .ok "Email moved to trash" (recalculateStats db2))
  else (db, .error "Email ID or Thread ID is required" 400)

/-! ## Thread route (`src/app/api/emails/thread/[threadId]/route.ts`) -/

/-- `getThreadFilterCondition`: thread membership plus a three-way filter —
only `trash` and `important` are special-cased; every other filter value
(including `inbox`, `unread`, `sent` and an absent filter) takes the default
"non-deleted" branch. -/
def getThreadFilterCondition (t : String) (filter : Option String) (e : Email) : Bool :=
  e.threadId == t &&
    (match filter with
     | some "trash" => e.isDeleted
     | some "important" => e.isImportant && e.isDeleted == false
     | _ => e.isDeleted == false)

/-- Response of `GET /api/emails/thread/[threadId]`. -/
inductive ThreadResult where
  | error (msg : String) (status : Nat)
  | ok (emails : List Email) (count : Nat)
deriving DecidableEq, Repr

/-- The rows selected by the thread route, ordered by `createdAt ASC`. -/
def threadEmails (db : List Email) (t : String) (filter : Option String) : List Email :=
  sortEmails ascByCreated (db.filter (getThreadFilterCondition t filter))

/-- `GET /api/emails/thread/[threadId]`: 400 on an empty threadId, otherwise
the filtered thread rows oldest-first together with their count. -/
def threadRouteGET (db : List Email) (t : String) (filter : Option String) : ThreadResult :=
  if t = "" then .error "Thread ID is required" 400
  else .ok (threadEmails db t filter) (threadEmails db t filter).length

/-! ## Concrete tables used by counterexamples and witnesses -/

/-- Builder for concrete email rows (string columns fixed, flags varying). -/
def mkEmail (id : Int) (tid : String) (cr : Nat) (dir : EmailDirection)
    (rd imp del : Bool) : Email :=
  { id := id, threadId := tid, subject := "s", «from» := "f@x.y", «to» := "t@x.y",
    content := none, isRead := rd, isImportant := imp, isDeleted := del,
    direction := dir, createdAt := cr, updatedAt := 0 }

/-- Non-deleted incoming row of thread `t1`, creation time 5. -/
def cxInbox : Email := mkEmail 1 "t1" 5 .incoming false false false

/-- Deleted incoming row of thread `t1`, also at creation time 5: a
creation-time tie with `cxInbox`. -/
def cxTrashTie : Email := mkEmail 2 "t1" 5 .incoming false false true

/-- Two non-deleted incoming rows of one thread tied at creation time 10. -/
def cxTieA : Email := mkEmail 1 "t2" 10 .incoming false false false

/-- Second row of the `cxTieA` tie. -/
def cxTieB : Email := mkEmail 2 "t2" 10 .incoming false false false

/-- An outgoing, unread, non-deleted row: counted by the §4.1 `unread`
predicate but not by the implementation's unread aggregate. -/
def cxOutUnread : Email := mkEmail 1 "t3" 5 .outgoing false false false

/-- A read, non-deleted row: excluded by the §4.1 `unread` predicate but
returned by the thread route under `filter=unread`. -/
def cxReadRow : Email := mkEmail 1 "t4" 5 .incoming true false false

/-- An already-soft-deleted row, used for the delete/restore round trip. -/
def cxDeletedRow : Email := mkEmail 1 "t5" 5 .incoming false false true

/-- A one-row table whose only record is soft-deleted. -/
def cxDeletedDb : List Email := [cxDeletedRow]

/-- Witness row: non-deleted incoming at creation time 3. -/
def wRow : Email := mkEmail 1 "w1" 3 .incoming false false false

/-- Witness row in a second thread at creation time 4. -/
def wRow2 : Email := mkEmail 2 "w2" 4 .incoming false true false

/-- Witness table with two threads and distinct creation times. -/
def wDb : List Email := [wRow, wRow2]

/-- No two distinct rows of one thread share a creation time.  The spec's
tie-break discussion assumes this; the theorems below show exactly which
guarantees need it. -/
def PerThreadTimesInjective (db : List Email) : Prop :=
  db.Pairwise (fun a b => a.threadId = b.threadId → a.createdAt ≠ b.createdAt)

/-! ## Sorting lemmas -/

/-- Inserting permutes: `insertSorted le e l` is `e :: l` up to order. -/
theorem insertSorted_perm (le : Email → Email → Bool) (e : Email) :
    ∀ l : List Email, (insertSorted le e l).Perm (e :: l)
  | [] => List.Perm.refl _
  | x :: xs => by
      unfold insertSorted
      by_cases h : le e x = true
      · rw [if_pos h]
      · rw [if_neg h]
        exact (((insertSorted_perm le e xs).cons x).trans (List.Perm.swap e x xs))

/-- The insertion sort permutes its input. -/
theorem sortEmails_perm (le : Email → Email → Bool) :
    ∀ l : List Email, (sortEmails le l).Perm l
  | [] => List.Perm.refl _
  | x :: xs => by
      unfold sortEmails
      exact (insertSorted_perm le x _).trans ((sortEmails_perm le xs).cons x)

/-- Sorting preserves membership. -/
theorem mem_sortEmails {le : Email → Email → Bool} {l : List Email} {e : Email} :
    e ∈ sortEmails le l ↔ e ∈ l :=
  (sortEmails_perm le l).mem_iff

/-- Membership after insertion. -/
theorem mem_insertSorted {le : Email → Email → Bool} {l : List Email} {a e : Email} :
    a ∈ insertSorted le e l ↔ a = e ∨ a ∈ l := by
  rw [(insertSorted_perm le e l).mem_iff, List.mem_cons]

/-- Inserting into an ascending list keeps it ascending. -/
theorem pairwise_insertSorted_asc (e : Email) :
    ∀ l : List Email, l.Pairwise (fun a b => a.createdAt ≤ b.createdAt) →
      (insertSorted ascByCreated e l).Pairwise (fun a b => a.createdAt ≤ b.createdAt)
  | [], _ => by simp [insertSorted]
  | x :: xs, h => by
      rw [List.pairwise_cons] at h
      unfold insertSorted
      by_cases hle : ascByCreated e x = true
      · rw [if_pos hle]
        have he : e.createdAt ≤ x.createdAt := by
          simpa [ascByCreated] using hle
        refine List.pairwise_cons.mpr ⟨?_, List.pairwise_cons.mpr ⟨h.1, h.2⟩⟩
        intro y hy
        rcases List.mem_cons.mp hy with rfl | hy'
        · exact he
        · exact he.trans (h.1 y hy')
      · rw [if_neg hle]
        have hxe : x.createdAt ≤ e.createdAt := by
          simp only [ascByCreated, decide_eq_true_iff] at hle
          exact Nat.le_of_not_le hle
        refine List.pairwise_cons.mpr ⟨?_, pairwise_insertSorted_asc e xs h.2⟩
        intro y hy
        rcases mem_insertSorted.mp hy with rfl | hy'
        · exact hxe
        · exact h.1 y hy'

/-- The ascending sort is ascending. -/
theorem pairwise_sortEmails_asc :
    ∀ l : List Email,
      (sortEmails ascByCreated l).Pairwise (fun a b => a.createdAt ≤ b.createdAt)
  | [] => List.Pairwise.nil
  | x :: xs => by
      unfold sortEmails
      exact pairwise_insertSorted_asc x _ (pairwise_sortEmails_asc xs)

/-! ## MAX(createdAt) lemmas -/

/-- An empty maximum means an empty group. -/
theorem maxCreated?_eq_none {l : List Email} (h : maxCreated? l = none) : l = [] := by
  cases l with
  | nil => rfl
  | cons x xs =>
      cases h' : maxCreated? xs <;> simp [maxCreated?, h'] at h

/-- `maxCreated?` is attained by a group member and bounds the group. -/
theorem maxCreated?_spec :
    ∀ (l : List Email) (m : Nat), maxCreated? l = some m →
      (∃ e ∈ l, e.createdAt = m) ∧ ∀ e ∈ l, e.createdAt ≤ m
  | [], m, h => by simp [maxCreated?] at h
  | x :: xs, m, h => by
      cases hr : maxCreated? xs with
      | none =>
          rw [maxCreated?, hr] at h
          obtain rfl : x.createdAt = m := Option.some_injective _ h
          obtain rfl : xs = [] := maxCreated?_eq_none hr
          exact ⟨⟨x, List.mem_singleton.mpr rfl, rfl⟩, by simp⟩
      | some m' =>
          rw [maxCreated?, hr] at h
          obtain rfl : max x.createdAt m' = m := Option.some_injective _ h
          obtain ⟨⟨w, hw, hwm⟩, hb⟩ := maxCreated?_spec xs m' hr
          constructor
          · rcases Nat.le_total x.createdAt m' with hxm | hmx
            · exact ⟨w, List.mem_cons_of_mem x hw, by rw [hwm, Nat.max_eq_right hxm]⟩
            · exact ⟨x, List.mem_cons_self x xs, (Nat.max_eq_left hmx).symm⟩
          · intro e he
            rcases List.mem_cons.mp he with rfl | he'
            · exact Nat.le_max_left _ _
            · exact (hb e he').trans (Nat.le_max_right _ _)

/-! ## Ties and thread-time injectivity -/

/-- Under `PerThreadTimesInjective`, a thread together with a creation time
determines the row. -/
theorem eq_of_thread_created_eq {db : List Email} {a b : Email}
    (h : PerThreadTimesInjective db) (ha : a ∈ db) (hb : b ∈ db)
    (ht : a.threadId = b.threadId) (hc : a.createdAt = b.createdAt) : a = b := by
  by_cases hab : a = b
  · exact hab
  · have hsym : Symmetric
        (fun a b : Email => a.threadId = b.threadId → a.createdAt ≠ b.createdAt) := by
      intro x y hxy hth hcc
      exact hxy hth.symm hcc.symm
    exact absurd hc (List.Pairwise.forall hsym h ha hb hab ht)

/-! ## Characterizing the threaded query -/

/-- Membership in one `GROUP BY` group of the `latest` subquery. -/
theorem mem_matchingInThread {db : List Email} {cond : Email → Bool} {t : String}
    {y : Email} :
    y ∈ matchingInThread db cond t ↔ y ∈ db ∧ cond y = true ∧ y.threadId = t := by
  simp [matchingInThread, List.mem_filter, Bool.and_eq_true, and_assoc]

/-- A row is returned by the threaded query iff it is a table row whose
creation time equals the maximum over its thread's matching rows. -/
theorem mem_fetchThreadedEmails {db : List Email} {cond : Email → Bool} {e : Email} :
    e ∈ fetchThreadedEmails db cond ↔
      e ∈ db ∧ threadMaxCreated db cond e.threadId = some e.createdAt := by
  rw [fetchThreadedEmails, mem_sortEmails, List.mem_filter, decide_eq_true_iff]

/-- Every row returned by the threaded query carries the maximum creation
time among its thread's matching rows, attained by some matching row. -/
theorem fetchThreaded_max {db : List Email} {cond : Email → Bool} {e : Email}
    (he : e ∈ fetchThreadedEmails db cond) :
    (∃ y, y ∈ db ∧ cond y = true ∧ y.threadId = e.threadId ∧
        y.createdAt = e.createdAt) ∧
    (∀ y, y ∈ db → cond y = true → y.threadId = e.threadId →
        y.createdAt ≤ e.createdAt) := by
  obtain ⟨hdb, hmax⟩ := mem_fetchThreadedEmails.mp he
  obtain ⟨⟨w, hw, hwm⟩, hb⟩ := maxCreated?_spec _ _ hmax
  obtain ⟨hw1, hw2, hw3⟩ := mem_matchingInThread.mp hw
  refine ⟨⟨w, hw1, hw2, hw3, hwm⟩, ?_⟩
  intro y hy hcy hty
  exact hb y (mem_matchingInThread.mpr ⟨hy, hcy, hty⟩)

/-- When creation times are injective per thread, every row returned by the
threaded query itself satisfies the query conditions. -/
theorem fetchThreaded_cond_of_inj {db : List Email} {cond : Email → Bool} {e : Email}
    (hinj : PerThreadTimesInjective db) (he : e ∈ fetchThreadedEmails db cond) :
    cond e = true := by
  obtain ⟨⟨y, hy, hcy, hty, hcr⟩, _⟩ := fetchThreaded_max he
  have hdb : e ∈ db := (mem_fetchThreadedEmails.mp he).1
  have : y = e := eq_of_thread_created_eq hinj hy hdb hty hcr
  rwa [this] at hcy

/-! ## Frame helper for row-wise SQL updates -/

/-- An `UPDATE` modelled as `map f` relates every row to its image. -/
theorem forall₂_map_self {P : Email → Email → Prop} (f : Email → Email) :
    ∀ l : List Email, (∀ e ∈ l, P e (f e)) → List.Forall₂ P l (l.map f)
  | [], _ => List.Forall₂.nil
  | x :: xs, h =>
      List.Forall₂.cons (h x (List.mem_cons_self x xs))
        (forall₂_map_self f xs (fun e he => h e (List.mem_cons_of_mem x he)))

/-- Any §4.1 filter other than trash only accepts non-deleted rows. -/
theorem not_deleted_of_filter {F : String} {e : Email}
    (hF : F ∈ (["inbox", "unread", "important", "sent", "trash"] : List String))
    (hne : F ≠ "trash") (h : getFilterCondition (some F) e = true) :
    e.isDeleted = false := by
  simp only [List.mem_cons, List.not_mem_nil, or_false] at hF
  rcases hF with rfl | rfl | rfl | rfl | rfl
  · exact (by simpa [getFilterCondition, Bool.and_eq_true] using h : _ ∧ e.isDeleted = false).2
  · exact (by simpa [getFilterCondition, Bool.and_eq_true] using h : _ ∧ e.isDeleted = false).2
  · exact (by simpa [getFilterCondition, Bool.and_eq_true] using h : _ ∧ e.isDeleted = false).2
  · exact (by simpa [getFilterCondition, Bool.and_eq_true] using h : _ ∧ e.isDeleted = false).2
  · exact absurd rfl hne

/-! ## C1 — filter soundness of the list query -/

/-- C1 (counterexample): as stated over every threaded flag the claim fails.
In the table `[cxInbox, cxTrashTie]` the two rows share thread `t1` and
creation time 5; only `cxInbox` matches the inbox predicate, yet the threaded
inbox query also returns the soft-deleted `cxTrashTie`, because the join back
from the `latest` subquery matches on `(threadId, createdAt)` without
re-applying the filter.  So under `inbox` a returned record has
`deleted = true`. -/
theorem fetchEmails_filter_sound_cx :
    cxTrashTie ∈ fetchEmails [cxInbox, cxTrashTie] (some "inbox") none true ∧
      cxTrashTie.isDeleted = true ∧
      getFilterCondition (some "inbox") cxTrashTie = false := by
  decide

/-- C1 (amended): for every filter F of the §4.1 table and every search
query, every record returned by the *non-threaded* list query under F
satisfies F's predicate, and trash is the only filter under which a returned
record may have `deleted = true`; the same holds for the threaded query
provided no two rows of one thread share a creation time (on such ties the
join can also return tied rows that do not match the filter). -/
theorem fetchEmails_filter_sound (db : List Email) (F : String) (q : Option String)
    (hF : F ∈ (["inbox", "unread", "important", "sent", "trash"] : List String)) :
    (∀ e ∈ fetchEmails db (some F) q false,
        getFilterCondition (some F) e = true ∧ (F = "trash" ∨ e.isDeleted = false)) ∧
    (PerThreadTimesInjective db →
      ∀ (th : Bool), ∀ e ∈ fetchEmails db (some F) q th,
        getFilterCondition (some F) e = true ∧ (F = "trash" ∨ e.isDeleted = false)) := by
  have hflat : ∀ e : Email, fetchEmailsCond (some F) q e = true →
      getFilterCondition (some F) e = true ∧ (F = "trash" ∨ e.isDeleted = false) := by
    intro e hc
    rw [fetchEmailsCond, Bool.and_eq_true] at hc
    refine ⟨hc.1, ?_⟩
    by_cases htr : F = "trash"
    · exact Or.inl htr
    · exact Or.inr (not_deleted_of_filter hF htr hc.1)
  have hfalse : ∀ e ∈ fetchEmails db (some F) q false,
      getFilterCondition (some F) e = true ∧ (F = "trash" ∨ e.isDeleted = false) := by
    intro e he
    rw [show fetchEmails db (some F) q false =
          sortEmails descByCreated (db.filter (fetchEmailsCond (some F) q)) from rfl,
        mem_sortEmails, List.mem_filter] at he
    exact hflat e he.2
  refine ⟨hfalse, ?_⟩
  intro hinj th e he
  cases th with
  | false => exact hfalse e he
  | true =>
      rw [show fetchEmails db (some F) q true =
            fetchThreadedEmails db (fetchEmailsCond (some F) q) from rfl] at he
      exact hflat e (fetchThreaded_cond_of_inj hinj he)

/-- C1 (witness): the amended theorem applied to the concrete table `wDb`
under the inbox filter, at the returned record `wRow`. -/
theorem fetchEmails_filter_sound_witness :
    getFilterCondition (some "inbox") wRow = true ∧
      ("inbox" = "trash" ∨ wRow.isDeleted = false) :=
  (fetchEmails_filter_sound wDb "inbox" none (by decide)).1 wRow (by decide)

/-! ## C2 — the threaded query's latest-per-thread guarantee -/

/-- C2 (counterexample): `cxTieA` and `cxTieB` are two matching rows of
thread `t2` tied at creation time 10; the threaded query returns both, so it
does not return at most one record per distinct threadId. -/
theorem fetchEmails_threaded_latest_cx :
    fetchEmails [cxTieA, cxTieB] (some "inbox") none true = [cxTieA, cxTieB] ∧
      cxTieA.threadId = cxTieB.threadId ∧ cxTieA ≠ cxTieB := by
  decide

/-- C2 (amended): every record returned by the threaded query carries the
maximum creation time among its thread's rows matching the filter and search
conditions (attained by such a matching row); and *provided no two rows of
one thread share a creation time*, the result has at most one record per
distinct threadId.  On ties all tied rows are returned. -/
theorem fetchEmails_threaded_latest (db : List Email) (f q : Option String) :
    (∀ e ∈ fetchEmails db f q true,
        (∃ y, y ∈ db ∧ fetchEmailsCond f q y = true ∧ y.threadId = e.threadId ∧
            y.createdAt = e.createdAt) ∧
        (∀ y, y ∈ db → fetchEmailsCond f q y = true → y.threadId = e.threadId →
            y.createdAt ≤ e.createdAt)) ∧
    (PerThreadTimesInjective db →
      (fetchEmails db f q true).Pairwise (fun a b => a.threadId ≠ b.threadId)) := by
  have hEq : fetchEmails db f q true = fetchThreadedEmails db (fetchEmailsCond f q) := rfl
  constructor
  · intro e he
    rw [hEq] at he
    exact fetchThreaded_max he
  · intro hinj
    rw [hEq, fetchThreadedEmails]
    have hsymm : ∀ {x y : Email}, x.threadId ≠ y.threadId → y.threadId ≠ x.threadId :=
      fun h => h.symm
    rw [List.Perm.pairwise_iff hsymm (sortEmails_perm descByCreated _)]
    have hpw : (db.filter (fun e =>
        decide (threadMaxCreated db (fetchEmailsCond f q) e.threadId =
          some e.createdAt))).Pairwise
        (fun a b => a.threadId = b.threadId → a.createdAt ≠ b.createdAt) :=
      List.Pairwise.sublist (List.filter_sublist db) hinj
    refine List.Pairwise.imp_of_mem ?_ hpw
    intro a b ha hb hsep hth
    rw [List.mem_filter, decide_eq_true_iff] at ha hb
    have hma := ha.2
    have hmb := hb.2
    rw [hth] at hma
    rw [hma] at hmb
    exact hsep hth (Option.some_injective _ hmb)

/-- C2 (witness): the amended theorem applied to the concrete table `wDb`,
whose threads have distinct creation times. -/
theorem fetchEmails_threaded_latest_witness :
    (fetchEmails wDb (some "inbox") none true).Pairwise
      (fun a b => a.threadId ≠ b.threadId) :=
  (fetchEmails_threaded_latest wDb (some "inbox") none).2
    (by unfold PerThreadTimesInjective; decide)

/-! ## C3 — recalculateStats versus the §4.1 filter table -/

/-- C3 (counterexample): on a table holding one outgoing, unread, non-deleted
row, the §4.1 unread predicate (`read = false AND deleted = false`, embodied
by `getFilterCondition "unread"`) counts 1, but `recalculateStats` reports 0,
because its unread aggregate is additionally scoped to
`direction = incoming`. -/
theorem recalculateStats_table_cx :
    countWhere (getFilterCondition (some "unread")) [cxOutUnread] = 1 ∧
      (recalculateStats [cxOutUnread]).unread = 0 := by
  decide

/-- C3 (amended): `recalculateStats` returns and persists counters that each
equal a COUNT over the email table; total, important, sent and deleted match
the §4.1 predicates exactly as claimed (deleted being unscoped
`deleted = true`), but the unread counter counts
`direction = incoming AND read = false AND deleted = false` — the §4.1 unread
predicate further restricted to incoming mail.  The upsert persists the four
counter columns of the stats row with the same values. -/
theorem recalculateStats_table (db : List Email) (now : Nat) :
    (recalculateStats db).total = countWhere (getFilterCondition (some "inbox")) db ∧
    (recalculateStats db).unread =
      countWhere (fun e => getFilterCondition (some "unread") e &&
        getFilterCondition (some "inbox") e) db ∧
    (recalculateStats db).important =
      countWhere (getFilterCondition (some "important")) db ∧
    (recalculateStats db).sent = countWhere (getFilterCondition (some "sent")) db ∧
    (recalculateStats db).deleted = countWhere (getFilterCondition (some "trash")) db ∧
    (recalcPersist db now).2.inboxEmailCount = (recalculateStats db).total ∧
    (recalcPersist db now).2.unreadEmailCount = (recalculateStats db).unread ∧
    (recalcPersist db now).2.importantEmailCount = (recalculateStats db).important ∧
    (recalcPersist db now).2.sentEmailCount = (recalculateStats db).sent ∧
    (recalcPersist db now).2.updatedAt = now := by
  refine ⟨rfl, ?_, ?_, rfl, ?_, rfl, rfl, rfl, rfl, rfl⟩
  · refine congrArg List.length (List.filter_congr ?_)
    intro e _
    obtain ⟨i, t, s, f, o, c, ir, ii, idl, dir, ca, ua⟩ := e
    cases ir <;> cases idl <;> cases dir <;> rfl
  · refine congrArg List.length (List.filter_congr ?_)
    intro e _
    obtain ⟨i, t, s, f, o, c, ir, ii, idl, dir, ca, ua⟩ := e
    cases ii <;> cases idl <;> rfl
  · refine congrArg List.length (List.filter_congr ?_)
    intro e _
    obtain ⟨i, t, s, f, o, c, ir, ii, idl, dir, ca, ua⟩ := e
    cases idl <;> rfl

/-! ## C4 — getStats reads the cache and hard-codes the deleted count -/

/-- C4 (confirmed): when the stats row was never initialized, `getStats`
falls back to the full recalculation and persists its row; when a row
pre-exists, the snapshot is read from the stored counters with the deleted
count hard-coded to 0 — not derived from the stored row (which has no deleted
column) and so not guaranteed fresh: on `cxDeletedDb`, whose one row is
soft-deleted, the snapshot's deleted count disagrees with the table no matter
what row is cached. -/
theorem getStats_cache_spec (db : List Email) (now : Nat) :
    (getStats db none now).1 = recalculateStats db ∧
    (getStats db none now).2 = some (statsRowOf (recalculateStats db) now) ∧
    (∀ r : EmailStatsRow,
        (getStats db (some r) now).1 =
          { total := r.inboxEmailCount, unread := r.unreadEmailCount,
            important := r.importantEmailCount, deleted := 0,
            sent := r.sentEmailCount }) ∧
    (∀ r : EmailStatsRow,
        (getStats cxDeletedDb (some r) now).1.deleted ≠
          countWhere (fun e => e.isDeleted) cxDeletedDb) := by
  refine ⟨rfl, rfl, fun r => rfl, fun r => ?_⟩
  show (0 : Nat) ≠ countWhere (fun e => e.isDeleted) cxDeletedDb
  decide

/-! ## C5 — the thread route's filter is only three-way -/

/-- C5 (counterexample): `cxReadRow` is a read, non-deleted row of thread
`t4`.  Under `filter=unread` the §4.1 predicate (`read = false AND
deleted = false`) rejects it, yet the thread route returns it: the route
special-cases only `trash` and `important` and treats every other filter as
"non-deleted". -/
theorem threadRoute_filters_cx :
    threadRouteGET [cxReadRow] "t4" (some "unread") =
        ThreadResult.ok [cxReadRow] 1 ∧
      getFilterCondition (some "unread") cxReadRow = false := by
  decide

/-- C5 (amended): for every threadId X and filter F, the fetch-thread
operation returns exactly the records of thread X that satisfy the route's
*three-way* predicate — `trash`: deleted; `important`: important and not
deleted; any other filter (including `inbox`, `unread`, `sent` and no
filter): not deleted — ordered ascending by creation time (oldest first).
For `trash` and `important` this agrees with the §4.1 table, but `inbox`,
`unread` and `sent` collapse to the default non-deleted branch. -/
theorem threadRoute_exact (db : List Email) (t : String) (f : Option String)
    (ht : t ≠ "") :
    threadRouteGET db t f =
        ThreadResult.ok (threadEmails db t f) (threadEmails db t f).length ∧
    (∀ e, e ∈ threadEmails db t f ↔
        e ∈ db ∧ getThreadFilterCondition t f e = true) ∧
    (threadEmails db t f).Pairwise (fun a b => a.createdAt ≤ b.createdAt) := by
  refine ⟨by rw [threadRouteGET, if_neg ht], fun e => ?_, pairwise_sortEmails_asc _⟩
  rw [threadEmails, mem_sortEmails, List.mem_filter]

/-- C5 (witness): the amended theorem applied to the concrete table `wDb`
and thread `w1` with no filter. -/
theorem threadRoute_exact_witness :
    threadRouteGET wDb "w1" none =
        ThreadResult.ok (threadEmails wDb "w1" none) (threadEmails wDb "w1" none).length ∧
      (threadEmails wDb "w1" none).Pairwise (fun a b => a.createdAt ≤ b.createdAt) :=
  ⟨(threadRoute_exact wDb "w1" none (by decide)).1,
   (threadRoute_exact wDb "w1" none (by decide)).2.2⟩

/-! ## C6 — thread-addressed soft delete scoped by filter=important -/

/-- C6 (confirmed): a `DELETE ?threadId=t&filter=important` request
soft-deletes exactly the rows of the thread that are currently important and
not already deleted, and leaves every other row (in or out of the thread)
entirely unchanged. -/
theorem DELETE_thread_important_scope (db : List Email) (idP : Option String)
    (t : String) (now : Nat) (ht : t ≠ "") :
    List.Forall₂ (fun e e' =>
        (e.threadId = t ∧ e.isDeleted = false ∧ e.isImportant = true →
            e' = { e with isDeleted := true, updatedAt := now }) ∧
        (¬(e.threadId = t ∧ e.isDeleted = false ∧ e.isImportant = true) → e' = e))
      db (DELETE db idP (some t) (some "important") now).1 := by
  have htr : truthyStr (some t) = true := by
    simp only [truthyStr, bne_iff_ne, ne_eq]
    exact ht
  have h1 : (DELETE db idP (some t) (some "important") now).1 =
      db.map (fun e =>
        if deleteThreadCond t (some "important") e then
          { e with isDeleted := true, updatedAt := now }
        else e) := by
    simp [DELETE, htr]
  rw [h1]
  have hcond : ∀ e : Email, deleteThreadCond t (some "important") e = true ↔
      (e.threadId = t ∧ e.isDeleted = false ∧ e.isImportant = true) := by
    intro e
    simp [deleteThreadCond, Bool.and_eq_true, and_assoc]
  refine forall₂_map_self _ db ?_
  intro e _
  by_cases hc : deleteThreadCond t (some "important") e = true
  · rw [if_pos hc]
    exact ⟨fun _ => rfl, fun hn => absurd ((hcond e).mp hc) hn⟩
  · rw [if_neg hc]
    exact ⟨fun h3 => absurd ((hcond e).mpr h3) hc, fun _ => rfl⟩

/-- C6 (witness): the scoping theorem applied to the concrete table `wDb`
and thread `w1`. -/
theorem DELETE_thread_important_scope_witness :
    List.Forall₂ (fun e e' =>
        (e.threadId = "w1" ∧ e.isDeleted = false ∧ e.isImportant = true →
            e' = { e with isDeleted := true, updatedAt := 9 }) ∧
        (¬(e.threadId = "w1" ∧ e.isDeleted = false ∧ e.isImportant = true) → e' = e))
      wDb (DELETE wDb none (some "w1") (some "important") 9).1 :=
  DELETE_thread_important_scope wDb none "w1" 9 (by decide)

/-! ## C7 — create validation writes nothing -/

/-- C7 (confirmed): when the subject or the recipient is blank (absent, empty
or whitespace-only), `POST /api/emails` fails with a 400 validation response
and the email table is unchanged. -/
theorem POST_blank_validation (db : List Email) (b : PostBody) (g : String)
    (now : Nat) (h : blankStr b.subject = true ∨ blankStr b.«to» = true) :
    (POST db b g now).1 = db ∧ (POST db b g now).2.statusCode = 400 := by
  by_cases h1 : blankStr b.subject = true
  · rw [POST, if_pos h1]
    exact ⟨rfl, rfl⟩
  · rcases h with h | h
    · exact absurd h h1
    · rw [POST, if_neg h1, if_pos h]
      exact ⟨rfl, rfl⟩

/-- C7 (witness): a whitespace-only subject on the concrete table `wDb`. -/
theorem POST_blank_validation_witness :
    (POST wDb ⟨some " ", some "a@b.c", none, none, none, none, none⟩ "gen" 11).1 = wDb ∧
    (POST wDb ⟨some " ", some "a@b.c", none, none, none, none, none⟩
        "gen" 11).2.statusCode = 400 :=
  POST_blank_validation wDb ⟨some " ", some "a@b.c", none, none, none, none, none⟩
    "gen" 11 (Or.inl (by decide))

/-! ## C8 — PATCH changes only the flags present in the body -/

/-- C8 (confirmed): an update addressed by id or threadId changes, on every
row, only the flags present in the request body; a flag absent from the body
and every non-flag column except `updatedAt` keep their previous values on
every row (matched or not). -/
theorem PATCH_frame (db : List Email) (b : PatchBody) (now : Nat)
    (hb : (truthyId b.id || truthyStr b.threadId) = true) :
    List.Forall₂ (fun e e' =>
        e'.id = e.id ∧ e'.threadId = e.threadId ∧ e'.subject = e.subject ∧
        e'.«from» = e.«from» ∧ e'.«to» = e.«to» ∧ e'.content = e.content ∧
        e'.direction = e.direction ∧ e'.createdAt = e.createdAt ∧
        (b.isRead = none → e'.isRead = e.isRead) ∧
        (b.isImportant = none → e'.isImportant = e.isImportant) ∧
        (b.isDeleted = none → e'.isDeleted = e.isDeleted))
      db (PATCH db b now).1 := by
  have h1 : (PATCH db b now).1 =
      db.map (fun e => if patchCond b e then patchApply b now e else e) := by
    simp [PATCH, hb]
  rw [h1]
  refine forall₂_map_self _ db ?_
  intro e _
  by_cases hc : patchCond b e = true
  · rw [if_pos hc]
    refine ⟨rfl, rfl, rfl, rfl, rfl, rfl, rfl, rfl, ?_, ?_, ?_⟩
    · intro h0; simp [patchApply, h0]
    · intro h0; simp [patchApply, h0]
    · intro h0; simp [patchApply, h0]
  · rw [if_neg hc]
    exact ⟨rfl, rfl, rfl, rfl, rfl, rfl, rfl, rfl,
      fun _ => rfl, fun _ => rfl, fun _ => rfl⟩

/-- C8 (witness): the frame theorem applied to the concrete table `wDb` with
a body carrying only `isRead`. -/
theorem PATCH_frame_witness :
    List.Forall₂ (fun e e' =>
        e'.id = e.id ∧ e'.threadId = e.threadId ∧ e'.subject = e.subject ∧
        e'.«from» = e.«from» ∧ e'.«to» = e.«to» ∧ e'.content = e.content ∧
        e'.direction = e.direction ∧ e'.createdAt = e.createdAt ∧
        ((⟨some 1, none, some true, none, none⟩ : PatchBody).isRead = none →
            e'.isRead = e.isRead) ∧
        ((⟨some 1, none, some true, none, none⟩ : PatchBody).isImportant = none →
            e'.isImportant = e.isImportant) ∧
        ((⟨some 1, none, some true, none, none⟩ : PatchBody).isDeleted = none →
            e'.isDeleted = e.isDeleted))
      wDb (PATCH wDb ⟨some 1, none, some true, none, none⟩ 12).1 :=
  PATCH_frame wDb ⟨some 1, none, some true, none, none⟩ 12 (by decide)

/-! ## C9 — soft-delete then restore round trip -/

/-- C9 (counterexample): the claim quantifies over *every* existing record,
but for a record that is already soft-deleted the round trip does not return
to the prior state: `cxDeletedRow` starts with `deleted = true`, the single-id
delete is a no-op on the flag, and the restore then flips it to `false`, a
change observable beyond `updatedAt` (e.g. the record leaves the trash
view). -/
theorem delete_restore_roundtrip_cx :
    (PATCH (DELETE cxDeletedDb (some "1") none none 7).1
        ⟨some 1, none, none, none, some false⟩ 8).1 =
      [{ cxDeletedRow with isDeleted := false, updatedAt := 8 }] ∧
    cxDeletedRow.isDeleted = true := by
  decide

/-- C9 (amended): for every existing record that is *not already deleted*,
soft-deleting it by id and then restoring it (PATCH `isDeleted = false`)
returns the system to the prior observable state except for the target's
`updatedAt`: the target row equals its old value with only `updatedAt`
renewed, and every other row is exactly unchanged. -/
theorem delete_restore_roundtrip (db : List Email) (s : String) (n : Int)
    (now1 now2 : Nat) (hs : s ≠ "") (hp : jsParseInt s = some n) (hn : n ≠ 0)
    (hnd : ∀ e ∈ db, e.id = n → e.isDeleted = false) :
    List.Forall₂ (fun e e2 =>
        (e.id = n → e2 = { e with updatedAt := now2 }) ∧ (e.id ≠ n → e2 = e))
      db (PATCH (DELETE db (some s) none none now1).1
            ⟨some n, none, none, none, some false⟩ now2).1 := by
  have hst : truthyStr (some s) = true := by
    simp only [truthyStr, bne_iff_ne, ne_eq]
    exact hs
  have hti : truthyId (some n) = true := by
    simp only [truthyId, bne_iff_ne, ne_eq]
    exact hn
  have h1 : (DELETE db (some s) none none now1).1 =
      db.map (fun e =>
        if e.id == n then { e with isDeleted := true, updatedAt := now1 } else e) := by
    simp [DELETE, hst, truthyStr, hp, hs]
  have h2 : ∀ db1 : List Email,
      (PATCH db1 (⟨some n, none, none, none, some false⟩ : PatchBody) now2).1 =
        db1.map (fun e =>
          if patchCond ⟨some n, none, none, none, some false⟩ e then
            patchApply ⟨some n, none, none, none, some false⟩ now2 e
          else e) := by
    intro db1
    simp [PATCH, hti]
  rw [h2, h1, List.map_map]
  refine forall₂_map_self _ db ?_
  intro e he
  have hdl := hnd e he
  obtain ⟨i, tid, sub, fr, tto, co, ir, ii, idl, dir, ca, ua⟩ := e
  by_cases hid : i = n
  · subst hid
    have h3 : idl = false := hdl rfl
    subst h3
    refine ⟨fun _ => ?_, fun hne => absurd rfl hne⟩
    simp [Function.comp, patchCond, patchApply, truthyStr]
  · refine ⟨fun h4 => absurd h4 hid, fun _ => ?_⟩
    have h5 : ((⟨i, tid, sub, fr, tto, co, ir, ii, idl, dir, ca, ua⟩ : Email).id == n)
        = false := by
      simpa using hid
    simp [Function.comp, h5, patchCond, truthyStr, hid]

/-- C9 (witness): the round-trip theorem applied to the concrete table `wDb`
(whose rows are not deleted), deleting and restoring id 1. -/
theorem delete_restore_roundtrip_witness :
    List.Forall₂ (fun e e2 =>
        (e.id = 1 → e2 = { e with updatedAt := 8 }) ∧ (e.id ≠ 1 → e2 = e))
      wDb (PATCH (DELETE wDb (some "1") none none 7).1
            ⟨some 1, none, none, none, some false⟩ 8).1 :=
  delete_restore_roundtrip wDb "1" 1 7 8 (by decide) (by decide) (by decide)
    (by decide)

/-! ## C10 — thread PATCH hits deleted rows, thread DELETE does not -/

/-- C10 (confirmed): an update addressed by threadId applies the requested
flag changes to *every* row of the thread, soft-deleted rows included; the
thread-addressed soft delete, by contrast, leaves every already-deleted row
completely untouched, for any scoping filter. -/
theorem PATCH_thread_includes_deleted (db : List Email) (t : String) (b : PatchBody)
    (fP : Option String) (now nowD : Nat) (hbt : b.threadId = some t) (ht : t ≠ "") :
    List.Forall₂ (fun e e' => e.threadId = t → e' = patchApply b now e)
      db (PATCH db b now).1 ∧
    List.Forall₂ (fun e e' => e.isDeleted = true → e' = e)
      db (DELETE db none (some t) fP nowD).1 := by
  have htr : truthyStr (some t) = true := by
    simp only [truthyStr, bne_iff_ne, ne_eq]
    exact ht
  have htb : truthyStr b.threadId = true := by rw [hbt]; exact htr
  constructor
  · have h1 : (PATCH db b now).1 =
        db.map (fun e => if patchCond b e then patchApply b now e else e) := by
      simp [PATCH, htb]
    rw [h1]
    refine forall₂_map_self _ db ?_
    intro e _ hth
    have hc : patchCond b e = true := by
      simp [patchCond, hbt, htr, hth]
    rw [if_pos hc]
  · have h2 : (DELETE db none (some t) fP nowD).1 =
        db.map (fun e =>
          if deleteThreadCond t fP e then { e with isDeleted := true, updatedAt := nowD }
          else e) := by
      simp [DELETE, htr]
    rw [h2]
    refine forall₂_map_self _ db ?_
    intro e _ hdel
    have hc : deleteThreadCond t fP e = false := by
      simp [deleteThreadCond, hdel]
    rw [if_neg (by simp [hc])]

/-- C10 (witness): the theorem applied to the concrete table `wDb` and thread
`w1`, marking the whole thread read. -/
theorem PATCH_thread_includes_deleted_witness :
    List.Forall₂ (fun e e' => e.threadId = "w1" →
        e' = patchApply ⟨none, some "w1", some true, none, none⟩ 7 e)
      wDb (PATCH wDb ⟨none, some "w1", some true, none, none⟩ 7).1 ∧
    List.Forall₂ (fun e e' => e.isDeleted = true → e' = e)
      wDb (DELETE wDb none (some "w1") none 8).1 :=
  PATCH_thread_includes_deleted wDb "w1" ⟨none, some "w1", some true, none, none⟩
    none 7 8 rfl (by decide)
